import Mathlib

/-!
Verification of the streaming chat-completion hooks library.

The decoder side embeds src/chat-stream-handler.ts: the body stream is a list
of text chunks (TextDecoder output); each chunk is split on blank lines
(split on the regex of two newlines), each segment has its leading data
marker stripped (replace of an anchored data-colon-whitespace pattern, which
can only fire at the start of a segment) and is trimmed; empty segments and
the DONE sentinel are filtered; the remaining segments are parsed with
JSON.parse (a parse failure throws, aborting the stream since the source has
no try/catch) and choices[0].delta is extracted and emitted.

The hook side embeds src/chat-hook.ts (the current fetch-based version):
createChatMessage, updateLastItem, handleNewData, closeStream, submitPrompt,
resetMessages, setMessages, modelled as pure state transitions; Date.now()
readings are passed in as explicit natural-number parameters.

JavaScript strings are modelled as lists of characters.
-/

namespace OpenAIHooks

abbrev Str := List Char

def strLit (s : String) : Str := s.data

/-- Whitespace class of the JavaScript regex escape for whitespace and of
String.prototype.trim, restricted to the ASCII range (tab, LF, VT, FF, CR,
space); the Unicode space characters in that class never occur on this wire
format. -/
def isJsWs (c : Char) : Bool :=
  c = '\t' || c = '\n' || c = Char.ofNat 11 || c = Char.ofNat 12 || c = '\r' || c = ' '

/-- Whitespace accepted between tokens by JSON.parse (the JSON grammar:
space, tab, LF, CR only). -/
def isJsonWs (c : Char) : Bool :=
  c = ' ' || c = '\t' || c = '\n' || c = '\r'

def skipWs (cs : List Char) : List Char := cs.dropWhile isJsonWs

/-- Left trim with the JS whitespace class (the greedy whitespace run eaten
by the data-marker replace, and the left half of trim). -/
def trimL (l : Str) : Str := l.dropWhile isJsWs

def trimR (l : Str) : Str := (trimL l.reverse).reverse

/-- String.prototype.trim. -/
def jsTrim (l : Str) : Str := trimR (trimL l)

def backtick : Char := Char.ofNat 96

/-- Segment splitting of decodedData.split on the two-newline regex.  The
regex engine scans left to right and consumes exactly two consecutive
newlines per separator.  The captured newline elements that JS interleaves
into the result array are not modelled: each of them is trimmed to the empty
string by the subsequent map and removed by the filter, so they never reach
the parser. -/
def splitSep : List Char → List (List Char)
  | [] => [[]]
  | [c] => [[c]]
  | c :: d :: rest =>
    if c = '\n' ∧ d = '\n' then
      [] :: splitSep rest
    else
      match splitSep (d :: rest) with
      | [] => [[c]]
      | s :: ss => (c :: s) :: ss

/-- line.replace of the anchored data-marker pattern: because the pattern is
anchored at the start of the string (the regex has no multiline flag, and the
optional leading newline can never match in front of the anchor), it only
strips a literal data-colon at position 0 followed by a greedy whitespace
run. -/
def stripData : Str → Str
  | 'd' :: 'a' :: 't' :: 'a' :: ':' :: rest => trimL rest
  | l => l

def doneStr : Str := strLit "[DONE]"

/-- The filter on candidate segments: drop empty lines and the DONE
sentinel. -/
def keep (t : Str) : Bool :=
  if t = [] then false else if t = doneStr then false else true

/-- Candidate frame payloads produced from one decoded chunk: split on blank
lines, strip the data marker, trim, filter empties and the sentinel. -/
def chunkCandidates (s : Str) : List Str :=
  ((splitSep s).map (fun l => jsTrim (stripData l))).filter keep

/-! ### JSON values and JSON.parse -/

/-- JSON values.  Numbers keep their source lexeme: no claim interprets a
numeric value, and the lexeme preserves exactly what was parsed. -/
inductive Json where
  | null : Json
  | bool (b : Bool) : Json
  | num (lexeme : Str) : Json
  | str (s : Str) : Json
  | arr (elems : List Json) : Json
  | obj (fields : List (Str × Json)) : Json

def hexVal (c : Char) : Option Nat :=
  if '0' ≤ c ∧ c ≤ '9' then some (c.toNat - 48)
  else if 'a' ≤ c ∧ c ≤ 'f' then some (c.toNat - 87)
  else if 'A' ≤ c ∧ c ≤ 'F' then some (c.toNat - 55)
  else none

def escChar (c : Char) : Option Char :=
  if c = '"' then some '"'
  else if c = '\\' then some '\\'
  else if c = '/' then some '/'
  else if c = 'b' then some (Char.ofNat 8)
  else if c = 'f' then some (Char.ofNat 12)
  else if c = 'n' then some '\n'
  else if c = 'r' then some '\r'
  else if c = 't' then some '\t'
  else none

/-- Body of a JSON string literal, after the opening quote: runs to the
closing quote, handling the escape sequences; raw control characters are a
parse error.  Surrogate pairing of unicode escapes is not modelled (the wire
format here is ASCII). -/
def strBody : List Char → Option (Str × List Char)
  | [] => none
  | '"' :: rest => some ([], rest)
  | '\\' :: 'u' :: a :: b :: c :: d :: rest =>
    (match hexVal a, hexVal b, hexVal c, hexVal d with
     | some h1, some h2, some h3, some h4 =>
       match strBody rest with
       | some (s, r) => some (Char.ofNat (((h1 * 16 + h2) * 16 + h3) * 16 + h4) :: s, r)
       | none => none
     | _, _, _, _ => none)
  | '\\' :: e :: rest =>
    (match escChar e with
     | some ec =>
       match strBody rest with
       | some (s, r) => some (ec :: s, r)
       | none => none
     | none => none)
  | c :: rest =>
    if c.toNat < 32 then none
    else
      match strBody rest with
      | some (s, r) => some (c :: s, r)
      | none => none

def isDigitCh (c : Char) : Bool := '0' ≤ c && c ≤ '9'

def lexDigits (cs : List Char) : Str × List Char :=
  (cs.takeWhile isDigitCh, cs.dropWhile isDigitCh)

def lexFrac : List Char → Option (Str × List Char)
  | '.' :: rest =>
    let p := lexDigits rest
    if p.1 = [] then none else some ('.' :: p.1, p.2)
  | cs => some ([], cs)

def lexExp : List Char → Option (Str × List Char)
  | c :: rest =>
    if c = 'e' ∨ c = 'E' then
      let sp : Str × List Char :=
        match rest with
        | s :: r => if s = '+' ∨ s = '-' then ([s], r) else ([], s :: r)
        | [] => ([], [])
      let p := lexDigits sp.2
      if p.1 = [] then none else some (c :: (sp.1 ++ p.1), p.2)
    else some ([], c :: rest)
  | [] => some ([], [])

/-- Lexes a JSON number (optional minus; zero or a nonzero-led digit run;
optional fraction; optional exponent), returning its lexeme. -/
def lexNum (cs : List Char) : Option (Str × List Char) :=
  let sp : Str × List Char :=
    match cs with
    | '-' :: r => (['-'], r)
    | _ => ([], cs)
  match sp.2 with
  | '0' :: r =>
    (match lexFrac r with
     | some (f, r2) =>
       match lexExp r2 with
       | some (e, r3) => some (sp.1 ++ '0' :: (f ++ e), r3)
       | none => none
     | none => none)
  | c :: r =>
    if isDigitCh c && ¬(c = '0') then
      let ds := lexDigits (c :: r)
      match lexFrac ds.2 with
      | some (f, r2) =>
        match lexExp r2 with
        | some (e, r3) => some (sp.1 ++ (ds.1 ++ f ++ e), r3)
        | none => none
      | none => none
    else none
  | [] => none

def dropKw : Str → List Char → Option (List Char)
  | [], cs => some cs
  | k :: ks, c :: cs => if c = k then dropKw ks cs else none
  | _ :: _, [] => none

mutual

/-- Recursive-descent JSON value parser (fuel-indexed; the wrapper supplies
ample fuel, more than the nesting depth of any input). -/
def parseVal : Nat → List Char → Option (Json × List Char)
  | 0, _ => none
  | fuel + 1, cs =>
    match skipWs cs with
    | [] => none
    | c :: rest =>
      if c = '"' then
        match strBody rest with
        | some (s, r) => some (Json.str s, r)
        | none => none
      else if c = Char.ofNat 123 then
        match skipWs rest with
        | c2 :: r2 =>
          if c2 = Char.ofNat 125 then some (Json.obj [], r2)
          else
            match parseFields fuel (skipWs rest) with
            | some (fs, r) => some (Json.obj fs, r)
            | none => none
        | [] => none
      else if c = '[' then
        match skipWs rest with
        | ']' :: r2 => some (Json.arr [], r2)
        | _ =>
          match parseElems fuel rest with
          | some (vs, r) => some (Json.arr vs, r)
          | none => none
      else if c = 't' then
        match dropKw (strLit "rue") rest with
        | some r => some (Json.bool true, r)
        | none => none
      else if c = 'f' then
        match dropKw (strLit "alse") rest with
        | some r => some (Json.bool false, r)
        | none => none
      else if c = 'n' then
        match dropKw (strLit "ull") rest with
        | some r => some (Json.null, r)
        | none => none
      else
        match lexNum (c :: rest) with
        | some (lx, r) => some (Json.num lx, r)
        | none => none

/-- Members of a JSON object, positioned at the first key; consumes the
closing brace. -/
def parseFields : Nat → List Char → Option (List (Str × Json) × List Char)
  | 0, _ => none
  | fuel + 1, cs =>
    match cs with
    | c :: rest =>
      if c = '"' then
        match strBody rest with
        | some (k, r1) =>
          match skipWs r1 with
          | ':' :: r2 =>
            (match parseVal fuel r2 with
             | some (v, r3) =>
               match skipWs r3 with
               | ',' :: r4 =>
                 (match parseFields fuel (skipWs r4) with
                  | some (fs, r5) => some ((k, v) :: fs, r5)
                  | none => none)
               | cend :: r4 =>
                 if cend = Char.ofNat 125 then some ([(k, v)], r4) else none
               | [] => none
             | none => none)
          | _ => none
        | none => none
      else none
    | [] => none

/-- Elements of a JSON array, positioned at the first element; consumes the
closing bracket. -/
def parseElems : Nat → List Char → Option (List Json × List Char)
  | 0, _ => none
  | fuel + 1, cs =>
    match parseVal fuel cs with
    | some (v, r1) =>
      (match skipWs r1 with
       | ',' :: r2 =>
         (match parseElems fuel r2 with
          | some (vs, r3) => some (v :: vs, r3)
          | none => none)
       | ']' :: r2 => some ([v], r2)
       | _ => none)
    | none => none

end

/-- JSON.parse: parse one value and require the whole input (up to trailing
whitespace) to be consumed; none models a thrown SyntaxError. -/
def parseJson (cs : Str) : Option Json :=
  match parseVal (2 * cs.length + 2) cs with
  | some (j, r) => if skipWs r = [] then some j else none
  | none => none

/-! ### Extraction of choices[0].delta from a parsed chunk -/

/-- Property lookup inside a parsed JSON object.  JSON.parse keeps the last
of duplicate keys, so the lookup prefers later fields. -/
def objLookup : List (Str × Json) → Str → Option Json
  | [], _ => none
  | (k, v) :: rest, key =>
    match objLookup rest key with
    | some v' => some v'
    | none => if k = key then some v else none

/-- Property access whose failure propagates as a thrown TypeError in the
source (reading a property of undefined or null, or indexing undefined):
none here means the surrounding expression throws. -/
def getField (j : Json) (key : Str) : Option Json :=
  match j with
  | Json.obj fs => objLookup fs key
  | _ => none

/-- choices[0]: index 0 of an array; an object with a zero key also answers
(JS bracket lookup); for every other carrier the overall delta access ends
in a thrown TypeError, which none also represents. -/
def indexZero : Json → Option Json
  | Json.arr (c :: _) => some c
  | Json.obj fs => objLookup fs (strLit "0")
  | _ => none

/-- delta.content or delta.role where delta is not null or undefined: a
missing property reads as undefined (none) without throwing. -/
def fieldOrUndef (d : Json) (key : Str) : Option Json :=
  match d with
  | Json.obj fs => objLookup fs key
  | _ => none

/-- The content post-processing replace: a leading backtick keeps itself and
drops the greedy whitespace run that follows it. -/
def normTick (s : Str) : Str :=
  match s with
  | c :: rest => if c = backtick then c :: rest.dropWhile isJsWs else s
  | [] => []

/-- delta.content coalesced with the empty string and normalized; none when
the value is present but not a string or null, because calling replace on it
throws.  (Absent and null both coalesce to the empty string.) -/
def contentOf (d : Json) : Option Str :=
  match fieldOrUndef d (strLit "content") with
  | none => some []
  | some Json.null => some []
  | some (Json.str s) => some (normTick s)
  | some _ => none

/-- String coercion of a defined, non-null role value, as the template
literal in the hook would apply it.  Non-primitive roles never occur on this
wire format and coerce to the empty string here. -/
def jsCoerce : Json → Str
  | Json.str s => s
  | Json.bool true => strLit "true"
  | Json.bool false => strLit "false"
  | Json.num lx => lx
  | _ => []

/-- delta.role coalesced with the empty string. -/
def roleOf (d : Json) : Str :=
  match fieldOrUndef d (strLit "role") with
  | none => []
  | some Json.null => []
  | some v => jsCoerce v

/-- The per-frame body of the emission loop: contentChunk and roleChunk from
chunk.choices[0].delta; none models a TypeError thrown while reading the
path (missing choices, empty choices, null delta, non-string content). -/
def extract (j : Json) : Option (Str × Str) :=
  match (getField j (strLit "choices")).bind indexZero with
  | none => none
  | some c =>
    match getField c (strLit "delta") with
    | none => none
    | some Json.null => none
    | some d =>
      match contentOf d with
      | none => none
      | some content => some (content, roleOf d)

/-! ### The per-chunk and whole-stream processing loops -/

/-- lines.map of JSON.parse: the whole array is built before any emission,
so the first parse failure throws with nothing of this chunk emitted. -/
def parseAll : List Str → Option (List Json)
  | [] => some []
  | l :: ls =>
    match parseJson l with
    | none => none
    | some j =>
      match parseAll ls with
      | none => none
      | some js => some (j :: js)

/-- The for-loop over parsed chunks: emits one (contentChunk, roleChunk)
pair per frame until an extraction TypeError; the Bool is the thrown flag. -/
def emitLoop : List Json → List (Str × Str) × Bool
  | [] => ([], false)
  | j :: js =>
    match extract j with
    | none => ([], true)
    | some d =>
      let r := emitLoop js
      (d :: r.1, r.2)

/-- Processing of one decoded chunk: parse every candidate line, then emit;
a parse failure emits nothing from this chunk and throws. -/
def runChunk (s : Str) : List (Str × Str) × Bool :=
  match parseAll (chunkCandidates s) with
  | none => ([], true)
  | some js => emitLoop js

/-- The async iteration over the response body: chunks are processed in
order; an exception stops the loop, keeping the pairs already emitted. -/
def runStream : List Str → List (Str × Str) × Bool
  | [] => ([], false)
  | c :: cs =>
    let r := runChunk c
    if r.2 then (r.1, true)
    else (r.1 ++ (runStream cs).1, (runStream cs).2)

/-- A response body: none models response.body being absent; failAfter
models the network stream itself erroring after yielding its chunks. -/
structure StreamResponse where
  body : Option (List Str)
  failAfter : Bool

/-- Observable outcome of openAiStreamingDataHandler: the emitted pairs in
order, whether the promise rejected, and whether onCloseStream ran. -/
structure HandlerRun where
  emitted : List (Str × Str)
  threw : Bool
  closedStream : Bool
deriving DecidableEq

/-- openAiStreamingDataHandler: throws when the response has no body;
otherwise decodes chunk by chunk and calls onCloseStream only after the
iteration finishes without an exception. -/
def openAiStreamingDataHandler (resp : StreamResponse) : HandlerRun :=
  match resp.body with
  | none => ⟨[], true, false⟩
  | some chunks =>
    let r := runStream chunks
    if r.2 then ⟨r.1, true, false⟩
    else if resp.failAfter then ⟨r.1, true, false⟩
    else ⟨r.1, false, true⟩

/-! ### Wire-format helpers used to state the decoder claims -/

def dataSp : Str := strLit "data: "

/-- Serialization of a list of frame payloads as the OpenAI eventline wire
format: each payload on a data line, frames separated by a blank line. -/
def serializeFrames : List Str → Str
  | [] => []
  | p :: ps => dataSp ++ p ++ '\n' :: '\n' :: serializeFrames ps

/-- The delta one payload contributes: nothing for a filtered line, else the
extraction of its parse. -/
def payloadDelta (p : Str) : Option (Str × Str) :=
  if keep (jsTrim p) then (parseJson (jsTrim p)).bind extract else none

def nlFree (p : Str) : Prop := ∀ c ∈ p, c ≠ '\n'

/-- A payload the decoder handles without throwing: filtered out, or parsed
and extracted successfully. -/
def goodPayload (p : Str) : Prop :=
  jsTrim p = [] ∨ jsTrim p = doneStr ∨ ((parseJson (jsTrim p)).bind extract).isSome = true

instance (p : Str) : Decidable (nlFree p) := by
  unfold nlFree; infer_instance

instance (p : Str) : Decidable (goodPayload p) := by
  unfold goodPayload; infer_instance

/-! ### The chat hook: message data model and state transitions -/

/-- One streamed token record stored in meta.chunks. -/
structure ChatMessageToken where
  content : Str
  role : Str
  timestamp : Nat
deriving DecidableEq

structure ChatMeta where
  loading : Bool
  responseTime : Str
  chunks : List ChatMessageToken
deriving DecidableEq

structure ChatMessage where
  content : Str
  role : Str
  timestamp : Nat
  meta : ChatMeta
deriving DecidableEq

/-- ChatMessageParams: content and role plus optional timestamp and optional
meta whose fields are themselves optional.  The optional meta object is
flattened into its three optional fields, which is what the object spread
over the defaults observes. -/
structure ChatMessageParams where
  content : Str
  role : Str
  timestamp : Option Nat
  metaLoading : Option Bool
  metaResponseTime : Option Str
  metaChunks : Option (List ChatMessageToken)
deriving DecidableEq

/-- createChatMessage: timestamp defaults to Date.now() (passed here as
now) via nullish coalescing, and the meta defaults are overridden by any
fields present on the supplied meta. -/
def createChatMessage (now : Nat) (p : ChatMessageParams) : ChatMessage :=
  { content := p.content
    role := p.role
    timestamp := p.timestamp.getD now
    meta :=
      { loading := p.metaLoading.getD false
        responseTime := p.metaResponseTime.getD []
        chunks := p.metaChunks.getD [] } }

/-- updateLastItem: map over the list applying the function only at index
length - 1, i.e. only the last element changes. -/
def updateLastItem (f : α → α) : List α → List α
  | [] => []
  | [x] => [f x]
  | x :: y :: rest => x :: updateLastItem f (y :: rest)

/-- handleNewData: concatenate the incoming content and role fragments onto
the last message, keep its timestamp at 0, and append one token record
(stamped with Date.now(), passed as now) to meta.chunks, preserving the rest
of meta. -/
def handleNewData (now : Nat) (chunkContent chunkRole : Str) (msgs : List ChatMessage) :
    List ChatMessage :=
  updateLastItem
    (fun m =>
      { content := m.content ++ chunkContent
        role := m.role ++ chunkRole
        timestamp := 0
        meta :=
          { loading := m.meta.loading
            responseTime := m.meta.responseTime
            chunks := m.meta.chunks ++ [⟨chunkContent, chunkRole, now⟩] } })
    msgs

/-- toFixed with two digits on the elapsed milliseconds divided by 1000,
modelled as exact decimal rounding (half up) to centiseconds; the binary
float representation never matters to any claim. -/
def formatFixed2 (ms : Nat) : Str :=
  let cs := (ms + 5) / 10
  (Nat.repr (cs / 100)).data ++ '.' ::
    (if cs % 100 < 10 then '0' :: (Nat.repr (cs % 100)).data else (Nat.repr (cs % 100)).data)

def formatResponseTime (before after : Nat) : Str :=
  formatFixed2 (after - before) ++ strLit " sec."

/-- closeStream: stamp the final timestamp on the last message, clear its
loading flag and record the formatted response time, preserving everything
else. -/
def closeStream (before after : Nat) (msgs : List ChatMessage) : List ChatMessage :=
  updateLastItem
    (fun m =>
      { content := m.content
        role := m.role
        timestamp := after
        meta :=
          { loading := false
            responseTime := formatResponseTime before after
            chunks := m.meta.chunks } })
    msgs

/-- The in-flight guard read by submitPrompt: the loading flag of the last
message, with optional chaining defaulting to a falsy read on the empty
list. -/
def tailLoading (msgs : List ChatMessage) : Bool :=
  match msgs.getLast? with
  | some m => m.meta.loading
  | none => false

/-- The placeholder argument passed to createChatMessage by submitPrompt:
empty content and role, explicit zero timestamp, meta with loading true. -/
def placeholderParams : ChatMessageParams :=
  ⟨[], [], some 0, some true, none, none⟩

/-- Outcome of the synchronous head of submitPrompt: blocked by the
in-flight guard, a silent no-op for an absent or empty argument, or the
start of a request with the updated message list already stored. -/
inductive SubmitAction where
  | blockedInflight : SubmitAction
  | emptyNoop : SubmitAction
  | start (updated : List ChatMessage) : SubmitAction
deriving DecidableEq

/-- submitPrompt's synchronous head: return if the tail message is loading;
return if newMessages is absent or shorter than one; otherwise append the
normalized new messages plus the loading placeholder. -/
def submitPrompt (msgs : List ChatMessage) (newMessages : Option (List ChatMessageParams))
    (now : Nat) : SubmitAction :=
  if tailLoading msgs then SubmitAction.blockedInflight
  else
    match newMessages with
    | none => SubmitAction.emptyNoop
    | some l =>
      if l.length < 1 then SubmitAction.emptyNoop
      else
        SubmitAction.start
          (msgs ++ l.map (createChatMessage now) ++ [createChatMessage now placeholderParams])

/-- The message list as observed after the synchronous head of submitPrompt
(unchanged unless a request starts). -/
def messagesAfterSubmit (msgs : List ChatMessage) (newMessages : Option (List ChatMessageParams))
    (now : Nat) : List ChatMessage :=
  match submitPrompt msgs newMessages now with
  | SubmitAction.start updated => updated
  | _ => msgs

/-- resetMessages: clears the list unless the loading flag is set. -/
def resetMessages (loading : Bool) (msgs : List ChatMessage) : List ChatMessage :=
  if loading then msgs else []

/-- setMessages: overwrites the list with the normalized params unless the
loading flag is set. -/
def setMessagesOp (loading : Bool) (msgs : List ChatMessage) (ps : List ChatMessageParams)
    (now : Nat) : List ChatMessage :=
  if loading then msgs else ps.map (createChatMessage now)

/-! ### The hook as a state machine over its public operations -/

structure HookState where
  messages : List ChatMessage
  loading : Bool
deriving DecidableEq

/-- The public operations plus the internal stream events.  applyDelta and
the finish events model the callbacks of an in-flight request, so they fire
only while the loading flag is set; finishOk is the normal completion
(closeStream then the finally block), finishErr a caught stream error (the
finally block only). -/
inductive HookOp where
  | submit (newMessages : Option (List ChatMessageParams)) (now : Nat) : HookOp
  | applyDelta (chunkContent chunkRole : Str) (now : Nat) : HookOp
  | finishOk (before after : Nat) : HookOp
  | finishErr : HookOp
  | abortReq : HookOp
  | reset : HookOp
  | overwrite (ps : List ChatMessageParams) (now : Nat) : HookOp

def step (s : HookState) : HookOp → HookState
  | HookOp.submit nm now =>
    (match submitPrompt s.messages nm now with
     | SubmitAction.start updated => ⟨updated, true⟩
     | _ => s)
  | HookOp.applyDelta c r now =>
    if s.loading then ⟨handleNewData now c r s.messages, s.loading⟩ else s
  | HookOp.finishOk before after =>
    if s.loading then ⟨closeStream before after s.messages, false⟩ else s
  | HookOp.finishErr => if s.loading then ⟨s.messages, false⟩ else s
  | HookOp.abortReq => s
  | HookOp.reset => ⟨resetMessages s.loading s.messages, s.loading⟩
  | HookOp.overwrite ps now => ⟨setMessagesOp s.loading s.messages ps now, s.loading⟩

/-- Message params that do not smuggle a loading flag in: what ordinary
callers pass. -/
def cleanParams (p : ChatMessageParams) : Prop := p.metaLoading.getD false = false

def cleanOp : HookOp → Prop
  | HookOp.submit (some l) _ => ∀ p ∈ l, cleanParams p
  | HookOp.overwrite ps _ => ∀ p ∈ ps, cleanParams p
  | _ => True

/-- States reachable from the initial empty hook state through operations
whose arguments carry no injected loading flag. -/
inductive Reachable : HookState → Prop where
  | init : Reachable ⟨[], false⟩
  | next {s : HookState} (op : HookOp) : Reachable s → cleanOp op → Reachable (step s op)

/-- The tail-loading invariant: every message other than the last has its
loading flag off. -/
def tailOnlyLoading (msgs : List ChatMessage) : Prop :=
  ∀ m ∈ msgs.dropLast, m.meta.loading = false

instance (msgs : List ChatMessage) : Decidable (tailOnlyLoading msgs) := by
  unfold tailOnlyLoading; infer_instance

/-! ### A full run of submitPrompt wired to the stream handler -/

/-- Observable outcome of one awaited submitPrompt call, entered with the
loading flag clear. -/
structure SubmitRun where
  messages : List ChatMessage
  loading : Bool
  controller : Option Unit
  raisedToCaller : Bool
  loggedAborted : Bool
  loggedStreamError : Bool
deriving DecidableEq

/-- One complete submitPrompt call: the synchronous head, then the awaited
handler; every emitted pair is applied through handleNewData (all stamped
tChunk here), closeStream runs only when the handler completed, and the
catch block logs (classified by the abort signal) without rethrowing while
the finally block always clears the controller and the loading flag. -/
def runSubmit (msgs : List ChatMessage) (newMessages : Option (List ChatMessageParams))
    (now tChunk before after : Nat) (resp : StreamResponse) (aborted : Bool) : SubmitRun :=
  match submitPrompt msgs newMessages now with
  | SubmitAction.blockedInflight => ⟨msgs, false, none, false, false, false⟩
  | SubmitAction.emptyNoop => ⟨msgs, false, none, false, false, false⟩
  | SubmitAction.start updated =>
    let r := openAiStreamingDataHandler resp
    let streamed := r.emitted.foldl (fun acc d => handleNewData tChunk d.1 d.2 acc) updated
    if r.threw then
      ⟨streamed, false, none, false, aborted, !aborted⟩
    else
      ⟨closeStream before after streamed, false, none, false, false, false⟩

/-! ### getOpenAiRequestOptions -/

structure OpenAIChatMessage where
  content : Str
  role : Str
deriving DecidableEq

/-- The streaming params after destructuring: apiKey and model are taken out
and every remaining field stays in restOfApiParams, which may carry any
keys, including ones named stream or messages. -/
structure OpenAIStreamingParams where
  apiKey : Str
  model : Str
  restOfApiParams : List (Str × Json)

def messagesJson (msgs : List OpenAIChatMessage) : Json :=
  Json.arr (msgs.map fun m =>
    Json.obj [(strLit "content", Json.str m.content), (strLit "role", Json.str m.role)])

/-- The shape handed to fetch.  bodyObj is the field-assignment sequence of
the object literal passed to JSON.stringify, in source order: model first,
then the spread of restOfApiParams, then messages, then stream.  A later
assignment to the same key wins, which is exactly what objLookup reads. -/
structure FetchRequestOptions where
  headers : List (Str × Str)
  method : Str
  bodyObj : List (Str × Json)
  signal : Option Unit

def getOpenAiRequestOptions (params : OpenAIStreamingParams)
    (messages : List OpenAIChatMessage) (signal : Option Unit) : FetchRequestOptions :=
  { headers := [(strLit "Content-Type", strLit "application/json"),
                (strLit "Authorization", strLit "Bearer " ++ params.apiKey)]
    method := strLit "POST"
    bodyObj := [(strLit "model", Json.str params.model)] ++ params.restOfApiParams
        ++ [(strLit "messages", messagesJson messages), (strLit "stream", Json.bool true)]
    signal := signal }

/-! ### Helper lemmas -/

theorem objLookup_concat (o : List (Str × Json)) (k : Str) (v : Json) (key : Str) :
    objLookup (o ++ [(k, v)]) key = if k = key then some v else objLookup o key := by
  induction o with
  | nil =>
    show (match objLookup [] key with
          | some v' => some v'
          | none => if k = key then some v else none) = _
    simp [objLookup]
  | cons hd tl ih =>
    rcases hd with ⟨k1, v1⟩
    show (match objLookup (tl ++ [(k, v)]) key with
          | some v' => some v'
          | none => if k1 = key then some v1 else none) = _
    rw [ih]
    by_cases hk : k = key
    · simp [hk, objLookup]
    · simp only [if_neg hk]
      rfl

theorem dropWhile_idem (p : Char → Bool) (l : List Char) :
    (l.dropWhile p).dropWhile p = l.dropWhile p := by
  induction l with
  | nil => rfl
  | cons c l ih =>
    by_cases h : p c = true
    · simp [List.dropWhile_cons, h, ih]
    · simp [List.dropWhile_cons, h]

theorem jsTrim_trimL (p : Str) : jsTrim (trimL p) = jsTrim p := by
  unfold jsTrim trimR trimL
  rw [dropWhile_idem]

theorem trimL_ws (c : Char) (p : Str) (h : isJsWs c = true) : trimL (c :: p) = trimL p := by
  simp [trimL, List.dropWhile_cons, h]

theorem splitSep_frame :
    ∀ (xs ys : List Char), (∀ c ∈ xs, c ≠ '\n') →
      splitSep (xs ++ '\n' :: '\n' :: ys) = xs :: splitSep ys
  | [], ys, _ => by simp [splitSep]
  | [a], ys, h => by
    have ha : ¬(a = '\n') := h a (by simp)
    simp [splitSep, ha]
  | a :: b :: xs, ys, h => by
    have ha : ¬(a = '\n') := h a (by simp)
    have ih := splitSep_frame (b :: xs) ys (fun c hc => h c (by simp at hc ⊢; tauto))
    simp only [List.cons_append] at ih ⊢
    rw [splitSep]
    simp only [ha, false_and, if_false]
    rw [ih]

theorem stripData_frame (p : Str) : stripData (dataSp ++ p) = trimL p := by
  show stripData ('d' :: 'a' :: 't' :: 'a' :: ':' :: ' ' :: p) = trimL p
  rw [stripData, trimL_ws ' ' p (by decide)]

theorem candidate_frame (p : Str) : jsTrim (stripData (dataSp ++ p)) = jsTrim p := by
  rw [stripData_frame, jsTrim_trimL]

theorem chunkCandidates_serialize :
    ∀ ps : List Str, (∀ p ∈ ps, nlFree p) →
      chunkCandidates (serializeFrames ps) = (ps.map jsTrim).filter keep
  | [], _ => by simp [chunkCandidates, serializeFrames, splitSep, stripData, jsTrim, trimL,
      trimR, keep]
  | p :: ps, h => by
    have hnl : ∀ c ∈ dataSp ++ p, c ≠ '\n' := by
      have hd : ∀ c ∈ dataSp, c ≠ '\n' := by decide
      intro c hc
      rcases List.mem_append.mp hc with h1 | h2
      · exact hd c h1
      · exact h p (by simp) c h2
    have ih := chunkCandidates_serialize ps (fun q hq => h q (by simp [hq]))
    unfold chunkCandidates at ih ⊢
    rw [show serializeFrames (p :: ps) = (dataSp ++ p) ++ '\n' :: '\n' :: serializeFrames ps by
          simp [serializeFrames],
        splitSep_frame (dataSp ++ p) (serializeFrames ps) hnl]
    rw [List.map_cons, List.map_cons, candidate_frame]
    by_cases hk : keep (jsTrim p) = true
    · rw [List.filter_cons_of_pos hk, List.filter_cons_of_pos hk, ih]
    · rw [List.filter_cons_of_neg (by simpa using hk), List.filter_cons_of_neg (by simpa using hk),
        ih]

theorem keep_true_iff (t : Str) : keep t = true ↔ ¬(t = []) ∧ ¬(t = doneStr) := by
  unfold keep
  by_cases h1 : t = [] <;> by_cases h2 : t = doneStr <;> simp [h1, h2]

theorem parse_emit_good :
    ∀ ps : List Str, (∀ p ∈ ps, goodPayload p) →
      ∃ js, parseAll ((ps.map jsTrim).filter keep) = some js ∧
        emitLoop js = (ps.filterMap payloadDelta, false)
  | [], _ => ⟨[], rfl, rfl⟩
  | p :: ps, h => by
    obtain ⟨js, h1, h2⟩ := parse_emit_good ps (fun q hq => h q (by simp [hq]))
    by_cases hk : keep (jsTrim p) = true
    · have hgood := h p (by simp)
      have hkeep := (keep_true_iff (jsTrim p)).mp hk
      have hsome : ((parseJson (jsTrim p)).bind extract).isSome = true := by
        rcases hgood with hg | hg | hg
        · exact absurd hg hkeep.1
        · exact absurd hg hkeep.2
        · exact hg
      obtain ⟨j, hpj⟩ : ∃ j, parseJson (jsTrim p) = some j := by
        cases hj : parseJson (jsTrim p) with
        | none => rw [hj] at hsome; simp [Option.bind] at hsome
        | some j => exact ⟨j, rfl⟩
      obtain ⟨d, hx⟩ : ∃ d, extract j = some d := by
        rw [hpj] at hsome
        cases he : extract j with
        | none => rw [Option.some_bind, he] at hsome; simp at hsome
        | some d => exact ⟨d, rfl⟩
      refine ⟨j :: js, ?_, ?_⟩
      · rw [List.map_cons, List.filter_cons_of_pos hk]
        unfold parseAll
        rw [hpj, h1]
      · unfold emitLoop
        rw [hx, h2, List.filterMap_cons]
        have hpd : payloadDelta p = some d := by
          unfold payloadDelta
          rw [if_pos hk, hpj, Option.some_bind, hx]
        rw [hpd]
    · have hpd : payloadDelta p = none := by
        unfold payloadDelta
        rw [if_neg hk]
      refine ⟨js, ?_, ?_⟩
      · rw [List.map_cons, List.filter_cons_of_neg (by simpa using hk)]
        exact h1
      · rw [h2, List.filterMap_cons, hpd]

theorem runChunk_serialize (ps : List Str) (hnl : ∀ p ∈ ps, nlFree p)
    (hgood : ∀ p ∈ ps, goodPayload p) :
    runChunk (serializeFrames ps) = (ps.filterMap payloadDelta, false) := by
  obtain ⟨js, h1, h2⟩ := parse_emit_good ps hgood
  unfold runChunk
  rw [chunkCandidates_serialize ps hnl, h1]
  exact h2

theorem runStream_groups :
    ∀ gs : List (List Str),
      (∀ p ∈ gs.flatten, nlFree p) → (∀ p ∈ gs.flatten, goodPayload p) →
      runStream (gs.map serializeFrames) = (gs.flatten.filterMap payloadDelta, false)
  | [], _, _ => by simp [runStream]
  | g :: gs, hnl, hgood => by
    have hg1 : ∀ p ∈ g, nlFree p := fun p hp => hnl p (by simp [List.flatten_cons, hp])
    have hg2 : ∀ p ∈ g, goodPayload p := fun p hp => hgood p (by simp [List.flatten_cons, hp])
    have ih := runStream_groups gs
      (fun p hp => hnl p (by simp [List.flatten_cons]; right; exact (List.mem_flatten.mp hp)))
      (fun p hp => hgood p (by simp [List.flatten_cons]; right; exact (List.mem_flatten.mp hp)))
    rw [List.map_cons]
    unfold runStream
    rw [runChunk_serialize g hg1 hg2]
    simp [ih, List.filterMap_append]

theorem runStream_error :
    ∀ (cs₁ : List Str) (c : Str) (cs₂ : List Str),
      (runStream cs₁).2 = false → (runChunk c).2 = true →
      runStream (cs₁ ++ c :: cs₂) = ((runStream cs₁).1 ++ (runChunk c).1, true)
  | [], c, cs₂, _, hc => by
    simp only [List.nil_append]
    unfold runStream
    rw [if_pos hc]
    simp [runStream]
  | c₀ :: cs₁, c, cs₂, h1, hc => by
    have h0 : (runChunk c₀).2 = false := by
      by_contra hx
      have hx' : (runChunk c₀).2 = true := by
        cases hb : (runChunk c₀).2
        · exact absurd hb hx
        · rfl
      unfold runStream at h1
      rw [if_pos hx'] at h1
      simp at h1
    have h1' : (runStream cs₁).2 = false := by
      unfold runStream at h1
      rw [if_neg (by simp [h0])] at h1
      exact h1
    have ih := runStream_error cs₁ c cs₂ h1' hc
    simp only [List.cons_append]
    unfold runStream
    rw [if_neg (by simp [h0]), if_neg (by simp [h0]), ih]
    simp

theorem updateLastItem_concat (f : α → α) :
    ∀ (xs : List α) (x : α), updateLastItem f (xs ++ [x]) = xs ++ [f x]
  | [], x => rfl
  | [a], x => rfl
  | a :: b :: xs, x => by
    have ih := updateLastItem_concat f (b :: xs) x
    simp only [List.cons_append] at ih ⊢
    rw [updateLastItem, ih]

theorem updateLastItem_dropLast (f : α → α) (l : List α) :
    (updateLastItem f l).dropLast = l.dropLast := by
  rcases List.eq_nil_or_concat l with h | ⟨l', a, h⟩
  · subst h; rfl
  · subst h
    rw [List.concat_eq_append, updateLastItem_concat, List.dropLast_concat,
      List.dropLast_concat]

theorem updateLastItem_getLast? (f : α → α) (xs : List α) (x : α) :
    (updateLastItem f (xs ++ [x])).getLast? = some (f x) := by
  rw [updateLastItem_concat, List.getLast?_concat]

theorem all_not_loading (msgs : List ChatMessage) (h1 : tailOnlyLoading msgs)
    (h2 : tailLoading msgs = false) : ∀ m ∈ msgs, m.meta.loading = false := by
  intro m hm
  rcases List.eq_nil_or_concat msgs with h | ⟨l', a, h⟩
  · subst h; simp at hm
  · subst h
    rw [List.concat_eq_append] at hm h1 h2
    rcases List.mem_append.mp hm with hd | ht
    · exact h1 m (by rwa [List.dropLast_concat])
    · have : m = a := by simpa using ht
      subst this
      unfold tailLoading at h2
      rwa [List.getLast?_concat] at h2

theorem submitPrompt_start (msgs : List ChatMessage) (nm : Option (List ChatMessageParams))
    (now : Nat) (u : List ChatMessage) (h : submitPrompt msgs nm now = SubmitAction.start u) :
    tailLoading msgs = false ∧ ∃ l, nm = some l ∧
      u = msgs ++ l.map (createChatMessage now) ++ [createChatMessage now placeholderParams] := by
  unfold submitPrompt at h
  by_cases hg : tailLoading msgs = true
  · rw [if_pos hg] at h; cases h
  · rw [if_neg hg] at h
    refine ⟨by simpa using hg, ?_⟩
    split at h
    · cases h
    · split at h
      · cases h
      · cases h
        exact ⟨_, rfl, rfl⟩

theorem step_dropLast_delta (s : HookState) (c r : Str) (now : Nat) :
    ((step s (HookOp.applyDelta c r now)).messages).dropLast = s.messages.dropLast := by
  show ((if s.loading = true then
          (⟨handleNewData now c r s.messages, s.loading⟩ : HookState)
        else s).messages).dropLast = s.messages.dropLast
  split
  · exact updateLastItem_dropLast _ _
  · rfl

theorem step_dropLast_finishOk (s : HookState) (b a : Nat) :
    ((step s (HookOp.finishOk b a)).messages).dropLast = s.messages.dropLast := by
  show ((if s.loading = true then
          (⟨closeStream b a s.messages, false⟩ : HookState)
        else s).messages).dropLast = s.messages.dropLast
  split
  · exact updateLastItem_dropLast _ _
  · rfl

theorem create_clean_loading (now : Nat) (p : ChatMessageParams) (h : cleanParams p) :
    (createChatMessage now p).meta.loading = false := h

theorem reachable_tailOnly {s : HookState} (h : Reachable s) : tailOnlyLoading s.messages := by
  induction h with
  | init =>
    intro m hm
    simp at hm
  | next op hs hc ih =>
    rename_i s'
    cases op with
    | submit nm now =>
      rcases hsub : submitPrompt s'.messages nm now with _ | _ | u
      · simpa [step, hsub] using ih
      · simpa [step, hsub] using ih
      · obtain ⟨hguard, l, hnm, rfl⟩ := submitPrompt_start _ _ _ _ hsub
        subst hnm
        intro m hm
        simp only [step, hsub] at hm
        rw [List.append_assoc, ← List.append_assoc, List.dropLast_concat] at hm
        rcases List.mem_append.mp hm with h1 | h2
        · exact all_not_loading s'.messages ih hguard m h1
        · obtain ⟨p, hp, rfl⟩ := List.mem_map.mp h2
          exact create_clean_loading now p (hc p hp)
    | applyDelta c r now =>
      intro m hm
      rw [step_dropLast_delta] at hm
      exact ih m hm
    | finishOk b a =>
      intro m hm
      rw [step_dropLast_finishOk] at hm
      exact ih m hm
    | finishErr =>
      have hmsg : (step s' HookOp.finishErr).messages = s'.messages := by
        show ((if s'.loading = true then (⟨s'.messages, false⟩ : HookState) else s').messages) =
          s'.messages
        split <;> rfl
      intro m hm
      rw [hmsg] at hm
      exact ih m hm
    | abortReq => exact ih
    | reset =>
      have : (step s' HookOp.reset).messages = resetMessages s'.loading s'.messages := rfl
      rw [this]
      unfold resetMessages
      split
      · exact ih
      · intro m hm; simp at hm
    | overwrite ps now =>
      have : (step s' (HookOp.overwrite ps now)).messages =
          setMessagesOp s'.loading s'.messages ps now := rfl
      rw [this]
      unfold setMessagesOp
      split
      · exact ih
      · intro m hm
        have hmem : m ∈ ps.map (createChatMessage now) := List.dropLast_subset _ hm
        obtain ⟨p, hp, rfl⟩ := List.mem_map.mp hmem
        exact create_clean_loading now p (hc p hp)

/-! ### Concrete inputs used by the counterexamples and witnesses -/

def rolePayload : Str :=
  strLit "\x7b\"choices\":[\x7b\"delta\":\x7b\"role\":\"assistant\"\x7d\x7d]\x7d"

def contentPayload : Str :=
  strLit "\x7b\"choices\":[\x7b\"delta\":\x7b\"content\":\"The\"\x7d\x7d]\x7d"

def roleFrame : Str := serializeFrames [rolePayload]

def contentFrame : Str := serializeFrames [contentPayload]

def badFrame : Str := strLit "data: \x7b bad\n\n"

def doneFrame : Str := serializeFrames [doneStr]

def userHi : ChatMessageParams := ⟨strLit "hi", strLit "user", none, none, none, none⟩

def m1 : ChatMessage := createChatMessage 5 userHi

def phMsg : ChatMessage := createChatMessage 5 placeholderParams

def loadParams : ChatMessageParams := ⟨strLit "a", strLit "user", none, some true, none, none⟩

def okParams : ChatMessageParams := ⟨strLit "b", strLit "user", none, none, none, none⟩

def noBodyResp : StreamResponse := ⟨none, false⟩

/-! ### Claim C1: chunk-boundary independence -/

/-- Claim C1, counterexample: the decoder is not chunk-boundary
independent, because no residual buffer is kept across reads.  The valid
one-frame stream delivered whole yields one delta and completes, while the
same bytes delivered one character at a time parse nothing and throw on the
very first fragment, so the two chunkings do not yield identical delta
sequences. -/
theorem c1_counterexample :
    runStream [roleFrame] = ([(strLit "", strLit "assistant")], false) ∧
    runStream (roleFrame.map (fun c => [c])) = ([], true) ∧
    openAiStreamingDataHandler ⟨some [roleFrame], false⟩ ≠
      openAiStreamingDataHandler ⟨some (roleFrame.map (fun c => [c])), false⟩ := by
  refine ⟨by decide, by decide, by decide⟩

/-- Claim C1, amended: chunk-boundary independence holds only for
re-chunkings that keep every frame whole.  For any grouping of a valid
frame stream into chunks along frame boundaries, decoding group by group
equals decoding all at once. -/
theorem c1_frame_aligned (gs : List (List Str))
    (hnl : ∀ p ∈ gs.flatten, nlFree p) (hgood : ∀ p ∈ gs.flatten, goodPayload p) :
    openAiStreamingDataHandler ⟨some (gs.map serializeFrames), false⟩ =
      openAiStreamingDataHandler ⟨some [serializeFrames gs.flatten], false⟩ := by
  have h1 := runStream_groups gs hnl hgood
  have h2 := runStream_groups [gs.flatten] (by simpa using hnl) (by simpa using hgood)
  simp only [List.map_cons, List.map_nil, List.flatten_cons, List.flatten_nil,
    List.append_nil] at h2
  simp [openAiStreamingDataHandler, h1, h2]

/-- Claim C1, witness: the amended theorem applied to a two-frame stream
grouped one frame per chunk versus all at once. -/
theorem c1_witness :
    openAiStreamingDataHandler
        ⟨some (([[rolePayload], [contentPayload]] : List (List Str)).map serializeFrames),
          false⟩ =
      openAiStreamingDataHandler
        ⟨some [serializeFrames ([[rolePayload], [contentPayload]] : List (List Str)).flatten],
          false⟩ :=
  c1_frame_aligned [[rolePayload], [contentPayload]] (by decide) (by decide)

/-! ### Claim C2: malformed-frame tolerance -/

/-- Claim C2, counterexample: on the stream of a good role frame, a
malformed frame, a good content frame and the sentinel, the decoder applies
exactly one delta, not two, and the parse failure aborts the stream (the
handler throws and never calls onCloseStream). -/
theorem c2_counterexample :
    runStream [roleFrame, badFrame, contentFrame, doneFrame] =
      ([(strLit "", strLit "assistant")], true) ∧
    (runStream [roleFrame, badFrame, contentFrame, doneFrame]).1.length = 1 ∧
    (openAiStreamingDataHandler ⟨some [roleFrame, badFrame, contentFrame, doneFrame],
        false⟩).threw = true ∧
    (openAiStreamingDataHandler ⟨some [roleFrame, badFrame, contentFrame, doneFrame],
        false⟩).closedStream = false := by
  refine ⟨by decide, by decide, by decide, by decide⟩

/-- Claim C2, amended: a frame whose payload fails to parse is not skipped;
it throws and aborts the stream.  Deltas from chunks already processed
remain applied, nothing of the failing chunk or of any later chunk is
applied, and onCloseStream never runs. -/
theorem c2_malformed_aborts (cs₁ : List Str) (c : Str) (cs₂ : List Str)
    (h1 : (runStream cs₁).2 = false) (hc : (runChunk c).2 = true) :
    runStream (cs₁ ++ c :: cs₂) = ((runStream cs₁).1 ++ (runChunk c).1, true) ∧
    (openAiStreamingDataHandler ⟨some (cs₁ ++ c :: cs₂), false⟩).threw = true ∧
    (openAiStreamingDataHandler ⟨some (cs₁ ++ c :: cs₂), false⟩).closedStream = false := by
  have h := runStream_error cs₁ c cs₂ h1 hc
  refine ⟨h, ?_, ?_⟩ <;> simp [openAiStreamingDataHandler, h]

/-- Claim C2, witness: the amended theorem applied to the stream of the
counterexample, chunked one frame per read. -/
theorem c2_witness :
    runStream ([roleFrame] ++ badFrame :: [contentFrame, doneFrame]) =
      ((runStream [roleFrame]).1 ++ (runChunk badFrame).1, true) ∧
    (openAiStreamingDataHandler ⟨some ([roleFrame] ++ badFrame :: [contentFrame, doneFrame]),
        false⟩).threw = true ∧
    (openAiStreamingDataHandler ⟨some ([roleFrame] ++ badFrame :: [contentFrame, doneFrame]),
        false⟩).closedStream = false :=
  c2_malformed_aborts [roleFrame] badFrame [contentFrame, doneFrame] (by decide) (by decide)

/-! ### Claim C7: sentinel termination -/

/-- Claim C7, counterexample: decoding does not stop at the DONE sentinel.
In a stream whose sentinel is followed by a content frame, the content frame
after the sentinel is parsed and applied (two deltas emitted) and the
iteration runs to the end of the byte stream. -/
theorem c7_counterexample :
    runStream [roleFrame ++ doneFrame ++ contentFrame] =
      ([(strLit "", strLit "assistant"), (strLit "The", strLit "")], false) ∧
    (runStream [roleFrame ++ doneFrame ++ contentFrame]).1.length = 2 := by
  refine ⟨by decide, by decide⟩

/-- Claim C7, amended: the sentinel frame is only filtered out, never
parsed or applied, and decoding continues: frames after the sentinel still
decode and apply, and the sequence ends with the byte stream. -/
theorem c7_sentinel_skipped (ps₁ ps₂ : List Str)
    (hnl : ∀ p ∈ ps₁ ++ ps₂, nlFree p) (hgood : ∀ p ∈ ps₁ ++ ps₂, goodPayload p) :
    runStream [serializeFrames (ps₁ ++ doneStr :: ps₂)] =
      ((ps₁ ++ ps₂).filterMap payloadDelta, false) := by
  have hd : payloadDelta doneStr = none := by decide
  have hnl' : ∀ p ∈ ([ps₁ ++ doneStr :: ps₂] : List (List Str)).flatten, nlFree p := by
    intro p hp
    simp at hp
    rcases hp with h | h | h
    · exact hnl p (List.mem_append.mpr (Or.inl h))
    · subst h; decide
    · exact hnl p (List.mem_append.mpr (Or.inr h))
  have hgood' : ∀ p ∈ ([ps₁ ++ doneStr :: ps₂] : List (List Str)).flatten, goodPayload p := by
    intro p hp
    simp at hp
    rcases hp with h | h | h
    · exact hgood p (List.mem_append.mpr (Or.inl h))
    · subst h; decide
    · exact hgood p (List.mem_append.mpr (Or.inr h))
  have h := runStream_groups [ps₁ ++ doneStr :: ps₂] hnl' hgood'
  simp only [List.map_cons, List.map_nil, List.flatten_cons, List.flatten_nil,
    List.append_nil] at h
  rw [h]
  simp [List.filterMap_append, List.filterMap_cons, hd]

/-- Claim C7, witness: the amended theorem applied to a role frame, the
sentinel, then a content frame, in one chunk. -/
theorem c7_witness :
    runStream [serializeFrames ([rolePayload] ++ doneStr :: [contentPayload])] =
      (([rolePayload] ++ [contentPayload]).filterMap payloadDelta, false) :=
  c7_sentinel_skipped [rolePayload] [contentPayload] (by decide) (by decide)

/-! ### Claim C3: empty submit -/

/-- Claim C3, counterexample: an empty or absent submission does not reset
the message list.  From a one-message state, submitPrompt with an empty
array or no argument leaves the list unchanged and nonempty, so it is not
set to the empty list. -/
theorem c3_counterexample :
    messagesAfterSubmit [m1] (some []) 7 = [m1] ∧
    messagesAfterSubmit [m1] none 7 = [m1] ∧
    [m1] ≠ ([] : List ChatMessage) := by
  refine ⟨by decide, by decide, by decide⟩

/-- Claim C3, amended: an empty or absent submission makes no network call
and leaves the message list unchanged; clearing the list is done by the
separate resetMessages operation, which empties it whenever the loading
flag is clear. -/
theorem c3_empty_submit_noop (msgs : List ChatMessage) (now : Nat) :
    messagesAfterSubmit msgs none now = msgs ∧
    messagesAfterSubmit msgs (some []) now = msgs ∧
    (∀ u, submitPrompt msgs none now ≠ SubmitAction.start u) ∧
    (∀ u, submitPrompt msgs (some []) now ≠ SubmitAction.start u) ∧
    resetMessages false msgs = [] := by
  unfold messagesAfterSubmit submitPrompt resetMessages
  by_cases hg : tailLoading msgs = true
  · simp [hg]
  · simp [hg]

/-! ### Claim C4: placeholder creation -/

/-- Claim C4: submitting one new message on an empty list produces a
two-element list whose second element is the placeholder with empty content
and role, zero timestamp, and loading metadata set, before any frame
arrives. -/
theorem c4_placeholder (p : ChatMessageParams) (now : Nat) :
    submitPrompt [] (some [p]) now =
      SubmitAction.start [createChatMessage now p, createChatMessage now placeholderParams] ∧
    [createChatMessage now p, createChatMessage now placeholderParams].length = 2 ∧
    createChatMessage now placeholderParams =
      ⟨[], [], 0, ⟨true, [], []⟩⟩ := by
  exact ⟨rfl, rfl, rfl⟩

/-! ### Claim C5: delta accumulation fold -/

/-- Claim C5: each applied delta transforms only the tail message, by
appending the content and role fragments, keeping the timestamp at zero,
and appending one token record to meta.chunks; in particular a role delta
followed by a content delta on the placeholder leaves role assistant,
content The, and two chunks in arrival order. -/
theorem c5_delta_fold (init : List ChatMessage) (m : ChatMessage) (now : Nat) (c r : Str) :
    handleNewData now c r (init ++ [m]) =
      init ++ [{ content := m.content ++ c, role := m.role ++ r, timestamp := 0,
                 meta := { loading := m.meta.loading, responseTime := m.meta.responseTime,
                           chunks := m.meta.chunks ++ [⟨c, r, now⟩] } }] ∧
    handleNewData 7 (strLit "The") (strLit "")
        (handleNewData 6 (strLit "") (strLit "assistant") [phMsg]) =
      [⟨strLit "The", strLit "assistant", 0,
        ⟨true, [], [⟨strLit "", strLit "assistant", 6⟩, ⟨strLit "The", strLit "", 7⟩]⟩⟩] := by
  refine ⟨?_, by decide⟩
  unfold handleNewData
  rw [updateLastItem_concat]

/-! ### Claim C6: finalization postconditions -/

/-- Claim C6: when the stream ends, closeStream sets the tail message's
loading to false, stamps its timestamp with the positive after time greater
than the recorded before time (now being monotone is the hypothesis), and
records a non-empty formatted response time; and among the operations
available while a stream is in flight, the finalize transition is the only
one that turns the streaming tail's loading off or makes its timestamp
non-zero. -/
theorem c6_finalization (init : List ChatMessage) (m : ChatMessage) (before after : Nat)
    (hlt : before < after) (hload : m.meta.loading = true) (hts : m.timestamp = 0) :
    closeStream before after (init ++ [m]) =
      init ++ [{ content := m.content, role := m.role, timestamp := after,
                 meta := { loading := false, responseTime := formatResponseTime before after,
                           chunks := m.meta.chunks } }] ∧
    0 < after ∧ before < after ∧
    formatResponseTime before after ≠ [] ∧
    (∀ op : HookOp, (∀ b a, op ≠ HookOp.finishOk b a) →
      tailLoading (step ⟨init ++ [m], true⟩ op).messages = true ∧
      ((step ⟨init ++ [m], true⟩ op).messages.getLast?.map ChatMessage.timestamp) = some 0) ∧
    tailLoading (step ⟨init ++ [m], true⟩ (HookOp.finishOk before after)).messages = false ∧
    ((step ⟨init ++ [m], true⟩ (HookOp.finishOk before after)).messages.getLast?.map
        ChatMessage.timestamp) = some after := by
  have hclose : closeStream before after (init ++ [m]) =
      init ++ [{ content := m.content, role := m.role, timestamp := after,
                 meta := { loading := false, responseTime := formatResponseTime before after,
                           chunks := m.meta.chunks } }] := by
    unfold closeStream
    rw [updateLastItem_concat]
  have hguard : tailLoading (init ++ [m]) = true := by
    unfold tailLoading
    rw [List.getLast?_concat]
    exact hload
  have htsTail : ((init ++ [m]).getLast?.map ChatMessage.timestamp) = some 0 := by
    rw [List.getLast?_concat]
    show some m.timestamp = some 0
    rw [hts]
  refine ⟨hclose, Nat.lt_of_le_of_lt (Nat.zero_le before) hlt, hlt, ?_, ?_, ?_, ?_⟩
  · intro hcon
    unfold formatResponseTime at hcon
    rcases List.append_eq_nil.mp hcon with ⟨-, h2⟩
    exact absurd h2 (by decide)
  · intro op hop
    cases op with
    | submit nm now =>
      have hstep : step ⟨init ++ [m], true⟩ (HookOp.submit nm now) = ⟨init ++ [m], true⟩ := by
        show (match submitPrompt (init ++ [m]) nm now with
              | SubmitAction.start updated => (⟨updated, true⟩ : HookState)
              | _ => ⟨init ++ [m], true⟩) = ⟨init ++ [m], true⟩
        unfold submitPrompt
        rw [if_pos hguard]
      rw [hstep]
      exact ⟨hguard, htsTail⟩
    | applyDelta c r now =>
      have hstep : (step ⟨init ++ [m], true⟩ (HookOp.applyDelta c r now)).messages =
          handleNewData now c r (init ++ [m]) := rfl
      rw [hstep]
      unfold handleNewData
      rw [updateLastItem_concat]
      constructor
      · unfold tailLoading
        rw [List.getLast?_concat]
        exact hload
      · rw [List.getLast?_concat]
        rfl
    | finishOk b a => exact absurd rfl (hop b a)
    | finishErr => exact ⟨hguard, htsTail⟩
    | abortReq => exact ⟨hguard, htsTail⟩
    | reset => exact ⟨hguard, htsTail⟩
    | overwrite ps now => exact ⟨hguard, htsTail⟩
  · have hstep : (step ⟨init ++ [m], true⟩ (HookOp.finishOk before after)).messages =
        closeStream before after (init ++ [m]) := rfl
    rw [hstep, hclose]
    unfold tailLoading
    rw [List.getLast?_concat]
  · have hstep : (step ⟨init ++ [m], true⟩ (HookOp.finishOk before after)).messages =
        closeStream before after (init ++ [m]) := rfl
    rw [hstep, hclose, List.getLast?_concat]
    rfl

/-- Claim C6, witness: the finalization equation of the theorem applied to
the placeholder message with before 100 and after 1600. -/
theorem c6_witness :
    closeStream 100 1600 [phMsg] =
      [⟨[], [], 1600, ⟨false, formatResponseTime 100 1600, []⟩⟩] :=
  (c6_finalization [] phMsg 100 1600 (by decide) (by decide) (by decide)).1

/-! ### Claim C8: tail-loading invariant -/

/-- Claim C8, counterexample: the public setMessages operation accepts
params that already carry a loading flag, producing a reachable state in
which a loading message is not the last element, so the invariant does not
hold for every sequence of public operations with arbitrary arguments. -/
theorem c8_counterexample :
    (step ⟨[], false⟩ (HookOp.overwrite [loadParams, okParams] 5)).messages.map
        (fun m => m.meta.loading) = [true, false] ∧
    ¬ tailOnlyLoading (step ⟨[], false⟩ (HookOp.overwrite [loadParams, okParams] 5)).messages := by
  refine ⟨by decide, by decide⟩

/-- Claim C8, amended: in every state reachable by public operations whose
message params do not inject a loading flag, every message before the last
has loading false (so at most the tail message is loading); and the delta
and finalize transitions never change any entry before the last. -/
theorem c8_tail_only_loading (s : HookState) (h : Reachable s) :
    tailOnlyLoading s.messages ∧
    (∀ c r now, ((step s (HookOp.applyDelta c r now)).messages).dropLast =
      s.messages.dropLast) ∧
    (∀ b a, ((step s (HookOp.finishOk b a)).messages).dropLast = s.messages.dropLast) :=
  ⟨reachable_tailOnly h,
   fun c r now => step_dropLast_delta s c r now,
   fun b a => step_dropLast_finishOk s b a⟩

/-- Claim C8, witness: the amended theorem applied to the state reached by
one clean submit from the initial state. -/
theorem c8_witness :
    tailOnlyLoading (step ⟨[], false⟩ (HookOp.submit (some [userHi]) 5)).messages :=
  (c8_tail_only_loading _
    (Reachable.next (HookOp.submit (some [userHi]) 5) Reachable.init
      (by intro p hp; simp at hp; subst hp; rfl))).1

/-! ### Claim C9: transport-error handling -/

/-- Claim C9, counterexample: a request whose response has no readable body
makes the handler throw, but submitPrompt catches and logs the error rather
than rethrowing, so nothing is propagated to the caller of submit. -/
theorem c9_counterexample :
    (openAiStreamingDataHandler noBodyResp).threw = true ∧
    (runSubmit [] (some [userHi]) 5 6 100 1600 noBodyResp false).loggedStreamError = true ∧
    (runSubmit [] (some [userHi]) 5 6 100 1600 noBodyResp false).raisedToCaller = false := by
  refine ⟨by decide, by decide, by decide⟩

/-- Claim C9, amended: a missing response body is a fatal error for the
request and every stream failure makes the handler throw, but the error is
caught and logged inside submitPrompt, never raised to its caller; the
in-flight guard, both the loading flag and the abort-controller handle, is
always released when the call finishes. -/
theorem c9_error_swallowed (msgs : List ChatMessage)
    (nm : Option (List ChatMessageParams)) (now tChunk before after : Nat)
    (resp : StreamResponse) (aborted : Bool) :
    (runSubmit msgs nm now tChunk before after resp aborted).raisedToCaller = false ∧
    (runSubmit msgs nm now tChunk before after resp aborted).loading = false ∧
    (runSubmit msgs nm now tChunk before after resp aborted).controller = none ∧
    (openAiStreamingDataHandler ⟨none, resp.failAfter⟩).threw = true := by
  have h4 : (openAiStreamingDataHandler ⟨none, resp.failAfter⟩).threw = true := rfl
  unfold runSubmit
  split
  · exact ⟨rfl, rfl, rfl, h4⟩
  · exact ⟨rfl, rfl, rfl, h4⟩
  · by_cases ht : (openAiStreamingDataHandler resp).threw = true <;> simp [ht, h4]

/-! ### Claim C10: outbound request invariants -/

/-- Claim C10: the body object built by getOpenAiRequestOptions always
reads stream as true and messages as the supplied list, because those
fields are assigned after the spread of the caller's extra params and a
later assignment wins; the method is always POST. -/
theorem c10_request_invariants (params : OpenAIStreamingParams)
    (messages : List OpenAIChatMessage) (signal : Option Unit) :
    objLookup (getOpenAiRequestOptions params messages signal).bodyObj (strLit "stream") =
      some (Json.bool true) ∧
    objLookup (getOpenAiRequestOptions params messages signal).bodyObj (strLit "messages") =
      some (messagesJson messages) ∧
    (getOpenAiRequestOptions params messages signal).method = strLit "POST" ∧
    (getOpenAiRequestOptions params messages signal).signal = signal := by
  have hb : (getOpenAiRequestOptions params messages signal).bodyObj =
      (([(strLit "model", Json.str params.model)] ++ params.restOfApiParams
          ++ [(strLit "messages", messagesJson messages)])
        ++ [(strLit "stream", Json.bool true)]) := by
    show ([(strLit "model", Json.str params.model)] ++ params.restOfApiParams
        ++ [(strLit "messages", messagesJson messages), (strLit "stream", Json.bool true)]) = _
    simp
  refine ⟨?_, ?_, rfl, rfl⟩
  · rw [hb, objLookup_concat]
    simp
  · rw [hb, objLookup_concat]
    rw [if_neg (by decide)]
    rw [show [(strLit "model", Json.str params.model)] ++ params.restOfApiParams
          ++ [(strLit "messages", messagesJson messages)] =
        ([(strLit "model", Json.str params.model)] ++ params.restOfApiParams)
          ++ [(strLit "messages", messagesJson messages)] from by simp,
      objLookup_concat]
    simp

end OpenAIHooks
